import Mathlib

/-!
Shallow embedding of `scrape_and_zip` from src/app.py (DuckDuckImg).

The program: validates the search term, creates a unique temporary staging
directory, asks the DuckDuckGo resolver for image URLs, downloads each URL
sequentially (per-item try/except), stages successes as `image_{i}{ext}`,
zips the staging directory into `<query with spaces replaced>_images.zip`,
removes the staging directory, and returns the zip path.  The whole body is
wrapped in `try/except Exception` which removes the staging directory if it
still exists and re-raises a generic `gr.Error`.

File bytes are modelled as `List Nat`; the network is modelled by an input
field `fetch : Nat → Option Bytes` giving the outcome of the i-th
`requests.get` in the loop, and the resolver by `Except Unit (List String)`
(`.error` = the DDGS call raised, `.ok urls` = the locator sequence it
yielded, already bounded by `max_results`).
-/

abbrev Bytes := List Nat

/-- The characters of `p` after its last `/` (the POSIX basename used by
`os.path.splitext`). -/
def afterLastSep (p : List Char) : List Char :=
  p.foldl (fun acc c => if c = '/' then [] else acc ++ [c]) []

/-- Split a basename at its last `.`: `some (before, dot-and-after)` when a
dot exists, `none` otherwise. -/
def splitAtLastDot (b : List Char) : Option (List Char × List Char) :=
  let r := b.reverse
  if r.contains '.' then
    let suf := r.takeWhile (fun c => c ≠ '.')
    let pre := (r.dropWhile (fun c => c ≠ '.')).tail
    some (pre.reverse, '.' :: suf.reverse)
  else none

/-- The extension component of `os.path.splitext(p)[1]` (POSIX rules): the
suffix of the basename from its last dot, empty when there is no dot or when
every character before that dot in the basename is itself a dot (so a leading
dot as in `.bashrc` yields no extension). -/
def splitextExt (p : String) : String :=
  let b := afterLastSep p.toList
  match splitAtLastDot b with
  | none => ""
  | some (pre, ext) => if pre.any (fun c => c ≠ '.') then String.mk ext else ""

/-- Python `s.split('?')[0]`: the longest prefix of `s` before its first
`'?'` (all of `s` when it has none). -/
def beforeQuery (s : String) : String :=
  String.mk (s.toList.takeWhile fun c => c ≠ '?')

/-- Lines 52–55 of app.py:
`file_extension = os.path.splitext(url)[1] or '.jpg'` followed by
`if '?' in file_extension: file_extension = file_extension.split('?')[0]`. -/
def fileExtension (url : String) : String :=
  let e := splitextExt url
  let e := if e = "" then ".jpg" else e
  if e.toList.contains '?' then beforeQuery e else e

/-- Line 57 of app.py: the staged filename `image_{i}{file_extension}`. -/
def imageFilename (i : Nat) (url : String) : String :=
  "image_" ++ toString i ++ fileExtension url

/-- Events of one `requests.get` call in the download loop: the request is
issued, and it completes (success or per-item exception). -/
inductive FetchEvent where
  | start (i : Nat)
  | finish (i : Nat)
deriving DecidableEq

/-- Lines 48–62 of app.py, instrumented.  The loop walks the URL list with
`enumerate`; each iteration issues one `requests.get` (event `start i`),
waits for it to complete (event `finish i` — the call is synchronous, so it
completes before the next iteration begins), and on success writes the bytes
to `image_{i}{ext}` in the staging directory; a per-item exception is caught
and only logged.  Returns the event trace and the staged files in creation
order. -/
def downloadRun (fetch : Nat → Option Bytes) :
    Nat → List String → List FetchEvent × List (String × Bytes)
  | _, [] => ([], [])
  | i, url :: rest =>
    let r := downloadRun fetch (i + 1) rest
    match fetch i with
    | some bs => (.start i :: .finish i :: r.1, (imageFilename i url, bs) :: r.2)
    | none => (.start i :: .finish i :: r.1, r.2)

/-- The staging-directory contents produced by the download loop. -/
def downloadLoop (fetch : Nat → Option Bytes) (urls : List String) :
    List (String × Bytes) :=
  (downloadRun fetch 0 urls).2

/-- The trace of fetch events produced by the download loop. -/
def fetchTrace (fetch : Nat → Option Bytes) (urls : List String) :
    List FetchEvent :=
  (downloadRun fetch 0 urls).1

/-- Whether an event is the issuing of a request. -/
def FetchEvent.isStart : FetchEvent → Bool
  | .start _ => true
  | .finish _ => false

/-- Whether an event is the completion of a request. -/
def FetchEvent.isFinish : FetchEvent → Bool
  | .start _ => false
  | .finish _ => true

/-- Number of fetch operations in flight after a trace: requests issued minus
requests completed. -/
def inFlightCount (tr : List FetchEvent) : Nat :=
  tr.countP FetchEvent.isStart - tr.countP FetchEvent.isFinish

/-- Number of indices the loop fetches successfully. -/
def successCount (fetch : Nat → Option Bytes) (urls : List String) : Nat :=
  (List.range urls.length).countP fun i => (fetch i).isSome

/-- `os.path.join root name` for a simple component. -/
def joinPath (root name : String) : String := root ++ "/" ++ name

/-- `os.path.relpath p root` in the only shape the archiver uses: `p` lies
strictly below `root`, so the result is `p` with the `root ++ "/"` prefix
removed. -/
def relpath (p root : String) : String :=
  let pre := (root ++ "/").toList
  if pre.isPrefixOf p.toList then String.mk (p.toList.drop pre.length) else p

/-- Lines 74–78 of app.py: `os.walk(temp_dir)` over the staging directory and
one `zipf.write(file_path, os.path.relpath(file_path, temp_dir))` per regular
file, in the order the walk lists them.  The pipeline stages only top-level
files (see `downloadRun`), so the walk yields the single triple
`(temp_dir, [], files)`; `listing` is that directory listing.  No sorting is
applied. -/
def buildZipEntries (root : String) (listing : List (String × Bytes)) :
    List (String × Bytes) :=
  listing.map fun e => (relpath (joinPath root e.1) root, e.2)

/-- Line 72 of app.py: `zip_path = f"{search_term.replace(' ', '_')}_images.zip"`.
Python's `str.replace(' ', '_')` replaces exactly the space character. -/
def zipName (query : String) : String :=
  String.mk (query.toList.map fun c => if c = ' ' then '_' else c) ++ "_images.zip"

/-- Exceptions that can escape the `try` body (lines 29–84). -/
inductive TryErr where
  /-- The DDGS resolver call itself raised (upstream outage). -/
  | resolverDown
  /-- The `gr.Error` raised at line 69: "No images found or could be
  downloaded for '&lt;query&gt;'. Please try a different search term." -/
  | noImages (q : String)
deriving DecidableEq

/-- The user-facing `gr.Error` messages `scrape_and_zip` can raise. -/
inductive Msg where
  /-- Line 22: "Please enter a search term." -/
  | enterSearchTerm
  /-- Line 90: "An error occurred during the process. Please check the
  console for details." -/
  | generic
deriving DecidableEq

/-- What one call to `scrape_and_zip` observably did. -/
inductive Outcome where
  /-- The function returned this zip path. -/
  | ok (zipPath : String)
  /-- The function raised this `gr.Error`. -/
  | err (m : Msg)
deriving DecidableEq

/-- State of the `try` body when it finishes (by return or by exception):
its result, whether the staging directory still exists, and the archive file
written to the working directory, if any. -/
structure TryResult where
  result : Except TryErr String
  tempDirExists : Bool
  archive : Option (String × List (String × Bytes))

/-- Final observable state of a `scrape_and_zip` call. -/
structure RunResult where
  outcome : Outcome
  /-- Whether the staging directory this call created exists after the call
  returns or raises (`false` as well when it was never created). -/
  tempDirExists : Bool
  /-- The archive written to the working directory: path and entries. -/
  archive : Option (String × List (String × Bytes))
deriving DecidableEq

/-- One call's inputs: the two arguments, the fresh staging-directory name
(line 25, `temp_images_{uuid4}`), and the environment's behaviour.
`maxImages` is forwarded to the external resolver as `max_results` and is
never range-checked by the function; `resolver` is that resolver's response. -/
structure Input where
  query : String
  maxImages : Nat
  tempDir : String
  resolver : Except Unit (List String)
  fetch : Nat → Option Bytes

/-- Lines 29–84 of app.py: the `try` body.  The staging directory exists on
entry (created at line 26).  Paths:
* the DDGS call raises → the exception propagates, the directory still exists;
* no file staged → line 68 removes the directory, line 69 raises the
  "No images found" `gr.Error`;
* otherwise lines 72–78 write the zip, line 81 removes the directory and
  line 84 returns the zip path. -/
def tryBody (inp : Input) : TryResult :=
  match inp.resolver with
  | .error _ => ⟨.error .resolverDown, true, none⟩
  | .ok urls =>
    let staged := downloadLoop inp.fetch urls
    if staged.isEmpty then
      ⟨.error (.noImages inp.query), false, none⟩
    else
      let zp := zipName inp.query
      ⟨.ok zp, false, some (zp, buildZipEntries inp.tempDir staged)⟩

/-- Lines 21–90 of app.py.  Empty query: line 22 raises before the staging
directory is created.  Otherwise the `try` body runs; a normal return is
passed through, and ANY exception — including the `gr.Error` from line 69 —
is caught by `except Exception` at line 85, which removes the staging
directory if it still exists and raises the generic `gr.Error` of line 90. -/
def scrapeAndZip (inp : Input) : RunResult :=
  if inp.query.isEmpty then
    ⟨.err .enterSearchTerm, false, none⟩
  else
    let t := tryBody inp
    match t.result with
    | .ok zp => ⟨.ok zp, t.tempDirExists, t.archive⟩
    | .error _ =>
      let td := if t.tempDirExists then false else t.tempDirExists
      ⟨.err .generic, td, t.archive⟩

/-- Modelled from the spec: the archive filename the spec describes —
"sanitize the query (e.g. replace whitespace with underscores) and append a
fixed suffix".  Replaces every whitespace character, where the code's
`str.replace(' ', '_')` replaces only the space character. -/
def claimedZipName (query : String) : String :=
  String.mk (query.toList.map fun c => if c.isWhitespace then '_' else c)
    ++ "_images.zip"

/-! ### Lemmas about the download loop -/

theorem downloadRun_fst_cons (fetch : Nat → Option Bytes) (i : Nat)
    (url : String) (rest : List String) :
    (downloadRun fetch i (url :: rest)).1
      = .start i :: .finish i :: (downloadRun fetch (i + 1) rest).1 := by
  cases h : fetch i <;> simp [downloadRun, h]

theorem downloadRun_snd_cons_some (fetch : Nat → Option Bytes) (i : Nat)
    (url : String) (rest : List String) (bs : Bytes) (h : fetch i = some bs) :
    (downloadRun fetch i (url :: rest)).2
      = (imageFilename i url, bs) :: (downloadRun fetch (i + 1) rest).2 := by
  simp [downloadRun, h]

theorem downloadRun_snd_cons_none (fetch : Nat → Option Bytes) (i : Nat)
    (url : String) (rest : List String) (h : fetch i = none) :
    (downloadRun fetch i (url :: rest)).2 = (downloadRun fetch (i + 1) rest).2 := by
  simp [downloadRun, h]

theorem downloadRun_mem_of_success (fetch : Nat → Option Bytes)
    (urls : List String) :
    ∀ (i j : Nat) (b : Bytes), j < urls.length → fetch (i + j) = some b →
      (imageFilename (i + j) (urls.getD j ""), b) ∈ (downloadRun fetch i urls).2 := by
  induction urls with
  | nil => intro i j b hj _; simp at hj
  | cons url rest ih =>
    intro i j b hj hf
    match j with
    | 0 =>
      simp only [Nat.add_zero] at hf ⊢
      rw [List.getD_cons_zero, downloadRun_snd_cons_some fetch i url rest b hf]
      exact List.mem_cons_self _ _
    | j + 1 =>
      have h1 : i + (j + 1) = (i + 1) + j := by omega
      have hmem := ih (i + 1) j b (by simpa using Nat.lt_of_succ_lt_succ (by simpa using hj))
        (by rw [← h1]; exact hf)
      rw [h1, List.getD_cons_succ]
      cases hfi : fetch i with
      | some bs =>
        rw [downloadRun_snd_cons_some fetch i url rest bs hfi]
        exact List.mem_cons_of_mem _ hmem
      | none =>
        rw [downloadRun_snd_cons_none fetch i url rest hfi]
        exact hmem

theorem downloadRun_snd_eq_nil_iff (fetch : Nat → Option Bytes)
    (urls : List String) :
    ∀ i : Nat, (downloadRun fetch i urls).2 = []
      ↔ ∀ j, j < urls.length → fetch (i + j) = none := by
  induction urls with
  | nil => intro i; simp [downloadRun]
  | cons url rest ih =>
    intro i
    cases hfi : fetch i with
    | some bs =>
      rw [downloadRun_snd_cons_some fetch i url rest bs hfi]
      simp only [List.cons_ne_nil, false_iff, not_forall]
      exact ⟨0, by simp, by simp [hfi]⟩
    | none =>
      rw [downloadRun_snd_cons_none fetch i url rest hfi]
      rw [ih (i + 1)]
      constructor
      · intro h j hj
        match j with
        | 0 => simpa using hfi
        | j + 1 =>
          have := h j (by simpa using Nat.lt_of_succ_lt_succ (by simpa using hj))
          rwa [show (i + 1) + j = i + (j + 1) by omega] at this
      · intro h j hj
        have := h (j + 1) (by simpa using hj)
        rwa [show i + (j + 1) = (i + 1) + j by omega] at this

theorem downloadRun_snd_length (fetch : Nat → Option Bytes)
    (urls : List String) :
    ∀ i : Nat, (downloadRun fetch i urls).2.length
      = (List.range urls.length).countP fun j => (fetch (i + j)).isSome := by
  induction urls with
  | nil => intro i; simp [downloadRun]
  | cons url rest ih =>
    intro i
    have hr : (List.range (rest.length + 1)).countP (fun j => (fetch (i + j)).isSome)
        = ((if (fetch i).isSome then 1 else 0)
            + (List.range rest.length).countP fun j => (fetch ((i + 1) + j)).isSome) := by
      rw [List.range_succ_eq_map]
      rw [List.countP_cons, List.countP_map]
      have : ∀ j, ((fun j => (fetch (i + j)).isSome) ∘ (· + 1)) j
          = (fun j => (fetch ((i + 1) + j)).isSome) j := by
        intro j; simp [Function.comp]; rw [show i + (j + 1) = (i + 1) + j by omega]
      rw [List.countP_congr fun a _ => by rw [this a]]
      simp [Nat.add_comm]
    cases hfi : fetch i with
    | some bs =>
      rw [downloadRun_snd_cons_some fetch i url rest bs hfi]
      simp only [List.length_cons, ih (i + 1)]
      simp only [List.length_cons] at hr ⊢
      rw [hr]
      simp [hfi, Nat.add_comm]
    | none =>
      rw [downloadRun_snd_cons_none fetch i url rest hfi]
      simp only [List.length_cons, ih (i + 1)]
      rw [hr]
      simp [hfi]

theorem downloadRun_names (fetch : Nat → Option Bytes) (urls : List String) :
    ∀ i : Nat, ∀ e ∈ (downloadRun fetch i urls).2,
      ∃ j, j < urls.length ∧ fetch (i + j) = some e.2
        ∧ e.1 = imageFilename (i + j) (urls.getD j "") := by
  induction urls with
  | nil => intro i e he; simp [downloadRun] at he
  | cons url rest ih =>
    intro i e he
    cases hfi : fetch i with
    | some bs =>
      rw [downloadRun_snd_cons_some fetch i url rest bs hfi] at he
      rcases List.mem_cons.mp he with h | h
      · exact ⟨0, by simp, by simp [h, hfi], by rw [h, List.getD_cons_zero]; simp⟩
      · obtain ⟨j, hj, hfj, hn⟩ := ih (i + 1) e h
        refine ⟨j + 1, by simpa using Nat.succ_lt_succ hj, ?_, ?_⟩
        · rwa [show i + (j + 1) = (i + 1) + j by omega]
        · rw [List.getD_cons_succ, show i + (j + 1) = (i + 1) + j by omega]
          exact hn
    | none =>
      rw [downloadRun_snd_cons_none fetch i url rest hfi] at he
      obtain ⟨j, hj, hfj, hn⟩ := ih (i + 1) e he
      refine ⟨j + 1, by simpa using Nat.succ_lt_succ hj, ?_, ?_⟩
      · rwa [show i + (j + 1) = (i + 1) + j by omega]
      · rw [List.getD_cons_succ, show i + (j + 1) = (i + 1) + j by omega]
        exact hn

theorem downloadRun_start_mem (fetch : Nat → Option Bytes) (urls : List String) :
    ∀ i j : Nat, j < urls.length →
      FetchEvent.start (i + j) ∈ (downloadRun fetch i urls).1 := by
  induction urls with
  | nil => intro i j hj; simp at hj
  | cons url rest ih =>
    intro i j hj
    rw [downloadRun_fst_cons]
    match j with
    | 0 => simp
    | j + 1 =>
      have := ih (i + 1) j (by simpa using Nat.lt_of_succ_lt_succ (by simpa using hj))
      rw [show i + (j + 1) = (i + 1) + j by omega]
      simp only [List.mem_cons]
      exact Or.inr (Or.inr this)

theorem inFlightCount_cons_pair (i j : Nat) (tr : List FetchEvent) :
    inFlightCount (.start i :: .finish j :: tr) = inFlightCount tr := by
  simp only [inFlightCount, List.countP_cons, FetchEvent.isStart, FetchEvent.isFinish]
  omega

theorem downloadRun_inFlight_le_one (fetch : Nat → Option Bytes)
    (urls : List String) :
    ∀ i k : Nat, inFlightCount ((downloadRun fetch i urls).1.take k) ≤ 1 := by
  induction urls with
  | nil => intro i k; simp [downloadRun, inFlightCount]
  | cons url rest ih =>
    intro i k
    rw [downloadRun_fst_cons]
    match k with
    | 0 => simp [inFlightCount]
    | 1 =>
      simp [inFlightCount, List.countP_cons, FetchEvent.isStart, FetchEvent.isFinish]
    | k + 2 =>
      simp only [List.take_succ_cons]
      rw [inFlightCount_cons_pair]
      exact ih (i + 1) k

/-! ### Lemmas about the archiver and the pipeline paths -/

theorem relpath_joinPath (root name : String) :
    relpath (joinPath root name) root = name := by
  have hdata : (joinPath root name).toList = (root ++ "/").toList ++ name.toList := by
    simp [joinPath, String.toList, String.data_append]
  unfold relpath
  rw [hdata]
  have hpre : ((root ++ "/").toList).isPrefixOf
      ((root ++ "/").toList ++ name.toList) = true :=
    List.isPrefixOf_iff_prefix.mpr (List.prefix_append _ _)
  rw [if_pos hpre, List.drop_left]
  rfl

theorem buildZipEntries_eq (root : String) (listing : List (String × Bytes)) :
    buildZipEntries root listing = listing := by
  unfold buildZipEntries
  have : ∀ e : String × Bytes, (relpath (joinPath root e.1) root, e.2) = e := by
    intro e; rw [relpath_joinPath]
  simp only [this, List.map_id_fun', id]

theorem tryBody_resolverDown (inp : Input) (u : Unit)
    (hr : inp.resolver = .error u) :
    tryBody inp = ⟨.error .resolverDown, true, none⟩ := by
  simp [tryBody, hr]

theorem tryBody_emptyBatch (inp : Input) (urls : List String)
    (hr : inp.resolver = .ok urls)
    (hs : (downloadLoop inp.fetch urls).isEmpty = true) :
    tryBody inp = ⟨.error (.noImages inp.query), false, none⟩ := by
  simp [tryBody, hr, hs]

theorem tryBody_success (inp : Input) (urls : List String)
    (hr : inp.resolver = .ok urls)
    (hs : (downloadLoop inp.fetch urls).isEmpty = false) :
    tryBody inp = ⟨.ok (zipName inp.query), false,
      some (zipName inp.query,
        buildZipEntries inp.tempDir (downloadLoop inp.fetch urls))⟩ := by
  simp [tryBody, hr, hs]

theorem scrapeAndZip_emptyQuery (inp : Input) (hq : inp.query.isEmpty = true) :
    scrapeAndZip inp = ⟨.err .enterSearchTerm, false, none⟩ := by
  simp [scrapeAndZip, hq]

theorem scrapeAndZip_resolverDown (inp : Input) (u : Unit)
    (hq : inp.query.isEmpty = false) (hr : inp.resolver = .error u) :
    scrapeAndZip inp = ⟨.err .generic, false, none⟩ := by
  simp [scrapeAndZip, hq, tryBody_resolverDown inp u hr]

theorem scrapeAndZip_emptyBatch (inp : Input) (urls : List String)
    (hq : inp.query.isEmpty = false) (hr : inp.resolver = .ok urls)
    (hs : (downloadLoop inp.fetch urls).isEmpty = true) :
    scrapeAndZip inp = ⟨.err .generic, false, none⟩ := by
  simp [scrapeAndZip, hq, tryBody_emptyBatch inp urls hr hs]

theorem scrapeAndZip_success (inp : Input) (urls : List String)
    (hq : inp.query.isEmpty = false) (hr : inp.resolver = .ok urls)
    (hs : (downloadLoop inp.fetch urls).isEmpty = false) :
    scrapeAndZip inp = ⟨.ok (zipName inp.query), false,
      some (zipName inp.query,
        buildZipEntries inp.tempDir (downloadLoop inp.fetch urls))⟩ := by
  simp [scrapeAndZip, hq, tryBody_success inp urls hr hs]

/-! ### Claim theorems -/

/-- C1: the claim says that when the resolver returns zero locators (or every
fetch fails) `scrape_and_zip` surfaces the distinct "no results for this
query" error, not a generic internal error.  The code does not — evaluated at
a resolver returning zero locators, the `try` body does raise the distinct
`gr.Error` of line 69, but the blanket `except Exception` of line 85 catches
it and replaces it with the generic error of line 90, so the caller receives
the generic message. -/
theorem C1_empty_batch_error_replaced_by_generic :
    (tryBody ⟨"cats", 50, "tempdir", .ok [], fun _ => none⟩).result
        = .error (.noImages "cats")
      ∧ (scrapeAndZip ⟨"cats", 50, "tempdir", .ok [], fun _ => none⟩).outcome
        = .err .generic
      ∧ (scrapeAndZip ⟨"cats", 50, "tempdir", .ok [], fun _ => none⟩).outcome
        ≠ .err .enterSearchTerm :=
  ⟨rfl, rfl, by decide⟩

/-- C2: for every input — empty query, resolver failure, empty batch, or
success — the temporary staging directory the call created does not exist
after `scrape_and_zip` returns or raises. -/
theorem C2_staging_dir_gone_on_every_path (inp : Input) :
    (scrapeAndZip inp).tempDirExists = false := by
  cases hq : inp.query.isEmpty with
  | true => rw [scrapeAndZip_emptyQuery inp hq]
  | false =>
    cases hr : inp.resolver with
    | error u => rw [scrapeAndZip_resolverDown inp u hq hr]
    | ok urls =>
      cases hs : (downloadLoop inp.fetch urls).isEmpty with
      | true => rw [scrapeAndZip_emptyBatch inp urls hq hr hs]
      | false => rw [scrapeAndZip_success inp urls hq hr hs]

/-- C8 counterexample: the archiver writes entries in the order the walk
lists the files, not sorted by relative path — a staging directory listed as
`b.jpg, a.jpg` is archived in that order, which is not sorted. -/
theorem C8_entries_not_sorted_counterexample :
    (buildZipEntries "tempdir" [("b.jpg", [1]), ("a.jpg", [2])]).map Prod.fst
      = ["b.jpg", "a.jpg"]
    ∧ ¬ List.Sorted (fun x y : String => x ≤ y)
        ((buildZipEntries "tempdir" [("b.jpg", [1]), ("a.jpg", [2])]).map Prod.fst) := by
  constructor
  · rfl
  · have hmap : (buildZipEntries "tempdir" [("b.jpg", [1]), ("a.jpg", [2])]).map Prod.fst
        = ["b.jpg", "a.jpg"] := rfl
    rw [hmap]
    intro h
    have hle : ("b.jpg" : String) ≤ "a.jpg" :=
      (List.sorted_cons.mp h).1 "a.jpg" (by simp)
    exact absurd (String.lt_iff_toList_lt.mpr
      (by decide : "a.jpg".toList < "b.jpg".toList)) hle

/-- C8 amended: the archiver writes exactly one entry per regular file found
under the staging root, each entry named by the file's path relative to the
staging root (so the archive is independent of where the staging root lives),
in the order the directory walk lists the files — no sorting is applied. -/
theorem C8_one_entry_per_file_relative_names (root root2 : String)
    (listing : List (String × Bytes)) :
    (buildZipEntries root listing).length = listing.length
    ∧ (buildZipEntries root listing).map Prod.fst = listing.map Prod.fst
    ∧ buildZipEntries root listing = buildZipEntries root2 listing
    ∧ buildZipEntries root listing = listing := by
  rw [buildZipEntries_eq, buildZipEntries_eq]
  exact ⟨rfl, rfl, rfl, rfl⟩

/-- C9 counterexample: a limit of 1000 lies outside the configured 10–200
range, yet `scrape_and_zip` performs no validation of it — the call proceeds
and returns an archive instead of raising a `ValidationError`. -/
theorem C9_out_of_range_limit_not_rejected :
    ¬ (10 ≤ 1000 ∧ 1000 ≤ 200)
    ∧ (scrapeAndZip ⟨"cats", 1000, "tempdir", .ok ["http://e.com/a.jpg"],
        fun _ => some [7]⟩).outcome = .ok "cats_images.zip" :=
  ⟨by decide, rfl⟩

/-- C9 amended: an empty query is rejected with the validation error before
any I/O — the result is the same for every environment, no staging directory
is created and no archive written — while the limit is not validated at all:
the function's behaviour does not depend on it (it is only forwarded to the
external resolver, whose reply the model takes as input). -/
theorem C9_empty_query_rejected_limit_unchecked (m m2 : Nat) (td : String)
    (r : Except Unit (List String)) (f : Nat → Option Bytes) (inp : Input) :
    scrapeAndZip ⟨"", m, td, r, f⟩ = ⟨.err .enterSearchTerm, false, none⟩
    ∧ scrapeAndZip { inp with maxImages := m2 } = scrapeAndZip inp :=
  ⟨rfl, rfl⟩

/-- C10: fetch dispatch is bounded — the loop issues its `requests.get`
calls strictly one after another (each completes before the next is issued),
so at every point of the trace at most one fetch is in flight, which
satisfies every concurrency bound of at least one; concurrency is never
unbounded. -/
theorem C10_in_flight_fetches_bounded (N : Nat) (hN : 1 ≤ N)
    (fetch : Nat → Option Bytes) (urls : List String) (k : Nat) :
    inFlightCount ((fetchTrace fetch urls).take k) ≤ N := by
  unfold fetchTrace
  exact le_trans (downloadRun_inFlight_le_one fetch urls 0 k) hN

/-- C10 witness: concurrency limit 5, 50 locators, an arbitrary prefix of
the trace. -/
theorem C10_in_flight_fetches_bounded_witness :
    1 ≤ 5
    ∧ inFlightCount ((fetchTrace (fun i => if i % 2 = 0 then some [i] else none)
        (List.replicate 50 "http://e.com/p.png")).take 17) ≤ 5 :=
  ⟨by decide, C10_in_flight_fetches_bounded 5 (by decide) _ _ 17⟩

theorem downloadLoop_isEmpty_false (fetch : Nat → Option Bytes)
    (urls : List String) (hs : ∃ i, i < urls.length ∧ (fetch i).isSome) :
    (downloadLoop fetch urls).isEmpty = false := by
  obtain ⟨i, hi, hsome⟩ := hs
  cases hE : (downloadLoop fetch urls).isEmpty with
  | false => rfl
  | true =>
    exfalso
    have hnil : (downloadRun fetch 0 urls).2 = [] := by
      cases hl : downloadLoop fetch urls with
      | nil => exact hl
      | cons a t => rw [hl] at hE; simp at hE
    have hz := (downloadRun_snd_eq_nil_iff fetch urls 0).mp hnil i hi
    rw [Nat.zero_add] at hz
    rw [hz] at hsome
    simp at hsome

theorem downloadLoop_isEmpty_true (fetch : Nat → Option Bytes)
    (urls : List String) (hall : ∀ i, i < urls.length → fetch i = none) :
    (downloadLoop fetch urls).isEmpty = true := by
  have hnil : (downloadRun fetch 0 urls).2 = [] :=
    (downloadRun_snd_eq_nil_iff fetch urls 0).mpr fun j hj => by
      rw [Nat.zero_add]; exact hall j hj
  unfold downloadLoop
  rw [hnil]
  rfl

/-- C3: for every non-empty query where the resolver returns at least one
locator and at least one fetch succeeds, `scrape_and_zip` returns the archive
path, an archive exists at that path with at least one entry, and the staging
directory is gone while the archive persists. -/
theorem C3_success_returns_persistent_archive (inp : Input) (urls : List String)
    (hq : inp.query.isEmpty = false) (hr : inp.resolver = .ok urls)
    (hs : ∃ i, i < urls.length ∧ (inp.fetch i).isSome) :
    ∃ entries : List (String × Bytes),
      (scrapeAndZip inp).outcome = .ok (zipName inp.query)
      ∧ (scrapeAndZip inp).archive = some (zipName inp.query, entries)
      ∧ entries ≠ []
      ∧ (scrapeAndZip inp).tempDirExists = false := by
  have hne := downloadLoop_isEmpty_false inp.fetch urls hs
  rw [scrapeAndZip_success inp urls hq hr hne]
  refine ⟨buildZipEntries inp.tempDir (downloadLoop inp.fetch urls), rfl, rfl, ?_, rfl⟩
  rw [buildZipEntries_eq]
  intro hnil
  rw [hnil] at hne
  simp at hne

/-- C3 witness: one locator, one successful fetch. -/
theorem C3_success_returns_persistent_archive_witness :
    ((Input.mk "cats" 50 "tempdir" (.ok ["http://e.com/a.jpg"])
        fun _ => some [7]).query.isEmpty = false)
    ∧ (∃ i, i < (["http://e.com/a.jpg"] : List String).length
        ∧ ((Input.mk "cats" 50 "tempdir" (.ok ["http://e.com/a.jpg"])
            fun _ => some [7]).fetch i).isSome)
    ∧ ∃ entries : List (String × Bytes),
        (scrapeAndZip (Input.mk "cats" 50 "tempdir" (.ok ["http://e.com/a.jpg"])
            fun _ => some [7])).outcome = .ok (zipName "cats")
        ∧ (scrapeAndZip (Input.mk "cats" 50 "tempdir" (.ok ["http://e.com/a.jpg"])
            fun _ => some [7])).archive = some (zipName "cats", entries)
        ∧ entries ≠ []
        ∧ (scrapeAndZip (Input.mk "cats" 50 "tempdir" (.ok ["http://e.com/a.jpg"])
            fun _ => some [7])).tempDirExists = false :=
  ⟨rfl, ⟨0, by decide, rfl⟩,
    C3_success_returns_persistent_archive _ ["http://e.com/a.jpg"] rfl rfl
      ⟨0, by decide, rfl⟩⟩

/-- C4: each staged file is named `image_{i}{extension}` where `i` is the
locator's 0-based position in the resolver's sequence; when `k` of `n`
locators succeed the archive holds exactly `k` entries carrying those
original indices (every entry's name uses its original index, and every
successful index is present), not renumbered. -/
theorem C4_entries_keep_original_indices (inp : Input) (urls : List String)
    (hq : inp.query.isEmpty = false) (hr : inp.resolver = .ok urls)
    (hs : ∃ i, i < urls.length ∧ (inp.fetch i).isSome) :
    ∃ entries : List (String × Bytes),
      (scrapeAndZip inp).archive = some (zipName inp.query, entries)
      ∧ entries.length = successCount inp.fetch urls
      ∧ (∀ e ∈ entries, ∃ i, i < urls.length ∧ inp.fetch i = some e.2
          ∧ e.1 = imageFilename i (urls.getD i ""))
      ∧ ∀ i b, i < urls.length → inp.fetch i = some b →
          (imageFilename i (urls.getD i ""), b) ∈ entries := by
  have hne := downloadLoop_isEmpty_false inp.fetch urls hs
  rw [scrapeAndZip_success inp urls hq hr hne, buildZipEntries_eq]
  refine ⟨downloadLoop inp.fetch urls, rfl, ?_, ?_, ?_⟩
  · rw [downloadLoop, downloadRun_snd_length inp.fetch urls 0, successCount]
    exact List.countP_congr fun a _ => by rw [Nat.zero_add]
  · intro e he
    obtain ⟨j, hj, hf, hn⟩ := downloadRun_names inp.fetch urls 0 e he
    rw [Nat.zero_add] at hf hn
    exact ⟨j, hj, hf, hn⟩
  · intro i b hi hb
    have hm := downloadRun_mem_of_success inp.fetch urls 0 i b hi
      (by rw [Nat.zero_add]; exact hb)
    rw [Nat.zero_add] at hm
    exact hm

/-- C4 witness: 10 locators of which exactly the ones at indices 2, 5 and 9
succeed; the success count is 3 and the archive keeps indices 2, 5, 9. -/
theorem C4_entries_keep_original_indices_witness :
    successCount (fun i => if i = 2 ∨ i = 5 ∨ i = 9 then some [i] else none)
        (List.replicate 10 "http://e.com/p.png") = 3
    ∧ downloadLoop (fun i => if i = 2 ∨ i = 5 ∨ i = 9 then some [i] else none)
        (List.replicate 10 "http://e.com/p.png")
      = [("image_2.png", [2]), ("image_5.png", [5]), ("image_9.png", [9])]
    ∧ ∃ entries : List (String × Bytes),
        (scrapeAndZip (Input.mk "cats" 50 "tempdir"
            (.ok (List.replicate 10 "http://e.com/p.png"))
            fun i => if i = 2 ∨ i = 5 ∨ i = 9 then some [i] else none)).archive
          = some (zipName "cats", entries)
        ∧ entries.length = successCount
            (fun i => if i = 2 ∨ i = 5 ∨ i = 9 then some [i] else none)
            (List.replicate 10 "http://e.com/p.png")
        ∧ (∀ e ∈ entries, ∃ i, i < (List.replicate 10 "http://e.com/p.png").length
            ∧ (if i = 2 ∨ i = 5 ∨ i = 9 then some [i] else none) = some e.2
            ∧ e.1 = imageFilename i ((List.replicate 10 "http://e.com/p.png").getD i ""))
        ∧ ∀ i b, i < (List.replicate 10 "http://e.com/p.png").length →
            (if i = 2 ∨ i = 5 ∨ i = 9 then some [i] else none) = some b →
            (imageFilename i ((List.replicate 10 "http://e.com/p.png").getD i ""), b)
              ∈ entries :=
  ⟨by decide, by decide,
    C4_entries_keep_original_indices _ (List.replicate 10 "http://e.com/p.png")
      rfl rfl ⟨2, by decide, rfl⟩⟩

/-- C5: a failure while fetching one locator never aborts the batch — every
locator in the sequence is still attempted (its `start` event appears in the
trace unconditionally), every success is staged regardless of other failures,
and the batch as a whole fails exactly when zero fetches succeed. -/
theorem C5_single_failure_never_aborts_batch (inp : Input) (urls : List String)
    (hq : inp.query.isEmpty = false) (hr : inp.resolver = .ok urls) :
    (∀ i, i < urls.length → FetchEvent.start i ∈ fetchTrace inp.fetch urls)
    ∧ (∀ i b, i < urls.length → inp.fetch i = some b →
        (imageFilename i (urls.getD i ""), b) ∈ downloadLoop inp.fetch urls)
    ∧ ((∃ i, i < urls.length ∧ (inp.fetch i).isSome) →
        (scrapeAndZip inp).outcome = .ok (zipName inp.query))
    ∧ ((∀ i, i < urls.length → inp.fetch i = none) →
        (scrapeAndZip inp).outcome = .err .generic) := by
  refine ⟨?_, ?_, ?_, ?_⟩
  · intro i hi
    have hm := downloadRun_start_mem inp.fetch urls 0 i hi
    rw [Nat.zero_add] at hm
    exact hm
  · intro i b hi hb
    have hm := downloadRun_mem_of_success inp.fetch urls 0 i b hi
      (by rw [Nat.zero_add]; exact hb)
    rw [Nat.zero_add] at hm
    exact hm
  · intro hs
    rw [scrapeAndZip_success inp urls hq hr
      (downloadLoop_isEmpty_false inp.fetch urls hs)]
  · intro hall
    rw [scrapeAndZip_emptyBatch inp urls hq hr
      (downloadLoop_isEmpty_true inp.fetch urls hall)]

/-- C5 witness: three locators with the middle fetch failing — all three are
attempted and the batch succeeds. -/
theorem C5_single_failure_never_aborts_batch_witness :
    ((Input.mk "cats" 50 "tempdir"
        (.ok ["http://e.com/a.png", "http://e.com/b.png", "http://e.com/c.png"])
        fun i => if i = 1 then none else some [i]).query.isEmpty = false)
    ∧ ((∀ i, i < (["http://e.com/a.png", "http://e.com/b.png",
          "http://e.com/c.png"] : List String).length →
        FetchEvent.start i ∈ fetchTrace (fun i => if i = 1 then none else some [i])
          ["http://e.com/a.png", "http://e.com/b.png", "http://e.com/c.png"])
      ∧ (∀ i b, i < (["http://e.com/a.png", "http://e.com/b.png",
            "http://e.com/c.png"] : List String).length →
          (if i = 1 then none else some [i]) = some b →
          (imageFilename i ((["http://e.com/a.png", "http://e.com/b.png",
              "http://e.com/c.png"] : List String).getD i ""), b)
            ∈ downloadLoop (fun i => if i = 1 then none else some [i])
              ["http://e.com/a.png", "http://e.com/b.png", "http://e.com/c.png"])
      ∧ ((∃ i, i < (["http://e.com/a.png", "http://e.com/b.png",
            "http://e.com/c.png"] : List String).length
          ∧ ((fun i => if i = 1 then (none : Option Bytes) else some [i]) i).isSome) →
          (scrapeAndZip (Input.mk "cats" 50 "tempdir"
            (.ok ["http://e.com/a.png", "http://e.com/b.png", "http://e.com/c.png"])
            fun i => if i = 1 then none else some [i])).outcome = .ok (zipName "cats"))
      ∧ ((∀ i, i < (["http://e.com/a.png", "http://e.com/b.png",
            "http://e.com/c.png"] : List String).length →
          (if i = 1 then (none : Option Bytes) else some [i]) = none) →
          (scrapeAndZip (Input.mk "cats" 50 "tempdir"
            (.ok ["http://e.com/a.png", "http://e.com/b.png", "http://e.com/c.png"])
            fun i => if i = 1 then none else some [i])).outcome = .err .generic)) :=
  ⟨rfl, C5_single_failure_never_aborts_batch
    (Input.mk "cats" 50 "tempdir"
      (.ok ["http://e.com/a.png", "http://e.com/b.png", "http://e.com/c.png"])
      fun i => if i = 1 then none else some [i])
    ["http://e.com/a.png", "http://e.com/b.png", "http://e.com/c.png"] rfl rfl⟩

/-- C6: the stored extension is the suffix `os.path.splitext` finds in the
locator URL; when that suffix is empty it defaults to `.jpg`; when it
contains the query-string separator `'?'` it is truncated at the separator
(so the stored extension never contains `'?'`). -/
theorem C6_extension_normalization (url : String) :
    (splitextExt url = "" → fileExtension url = ".jpg")
    ∧ (splitextExt url ≠ "" → (splitextExt url).toList.contains '?' = false →
        fileExtension url = splitextExt url)
    ∧ (splitextExt url ≠ "" → (splitextExt url).toList.contains '?' = true →
        fileExtension url = beforeQuery (splitextExt url))
    ∧ (fileExtension url).toList.contains '?' = false := by
  have hq : ∀ s : String, (beforeQuery s).toList.contains '?' = false := by
    intro s
    have hnot : ('?' : Char) ∉ s.toList.takeWhile (fun c => c ≠ '?') := by
      intro hm
      have := List.mem_takeWhile_imp hm
      simp at this
    simpa [beforeQuery] using hnot
  refine ⟨?_, ?_, ?_, ?_⟩
  · intro h
    simp only [fileExtension, h]
    decide
  · intro h1 h2
    simp only [fileExtension, if_neg h1, h2]
    simp
  · intro h1 h2
    simp only [fileExtension, if_neg h1, h2]
    simp
  · by_cases h1 : splitextExt url = ""
    · simp only [fileExtension, h1]
      decide
    · cases h2 : (splitextExt url).toList.contains '?' with
      | true =>
        simp only [fileExtension, if_neg h1, h2, if_pos rfl]
        exact hq (splitextExt url)
      | false =>
        simp only [fileExtension, if_neg h1, h2]
        simpa using h2

/-- C6 witness: a URL with a plain suffix, one with no suffix, and one whose
suffix carries a query string. -/
theorem C6_extension_normalization_witness :
    fileExtension "http://e.com/a.png" = ".png"
    ∧ fileExtension "http://e.com/foo" = ".jpg"
    ∧ fileExtension "http://e.com/a.png?b=c" = ".png" := by
  refine ⟨?_, ?_, ?_⟩
  · have h := (C6_extension_normalization "http://e.com/a.png").2.1
      (by decide) (by decide)
    rw [h]
    decide
  · have h := (C6_extension_normalization "http://e.com/foo").1 (by decide)
    rw [h]
  · have h := (C6_extension_normalization "http://e.com/a.png?b=c").2.2.1
      (by decide) (by decide)
    rw [h]
    decide

/-- C7 counterexample: for a query containing a tab character the code
replaces only space characters, so the archive name keeps the tab, while the
claim's "whitespace replaced by underscores" would replace it. -/
theorem C7_whitespace_not_replaced_counterexample :
    zipName "a\tb" = "a\tb_images.zip"
    ∧ claimedZipName "a\tb" = "a_b_images.zip"
    ∧ zipName "a\tb" ≠ claimedZipName "a\tb" :=
  ⟨by decide, by decide, by decide⟩

/-- C7 amended: the archive path equals the query with each space character
(only `' '`, not all whitespace) replaced by an underscore, followed by the
fixed suffix `_images.zip`, interpreted relative to the process's working
directory; the name depends only on the query, so two runs of the same query
produce the same single filename — the second run writes to the same path
(overwriting), never a second file. -/
theorem C7_archive_name_deterministic (inp inp2 : Input)
    (urls urls2 : List String)
    (hq : inp.query.isEmpty = false) (hr : inp.resolver = .ok urls)
    (hs : ∃ i, i < urls.length ∧ (inp.fetch i).isSome)
    (hq2 : inp2.query = inp.query) (hr2 : inp2.resolver = .ok urls2)
    (hs2 : ∃ i, i < urls2.length ∧ (inp2.fetch i).isSome) :
    zipName inp.query
      = String.mk (inp.query.toList.map fun c => if c = ' ' then '_' else c)
        ++ "_images.zip"
    ∧ (scrapeAndZip inp).outcome = .ok (zipName inp.query)
    ∧ (∃ e1, (scrapeAndZip inp).archive = some (zipName inp.query, e1))
    ∧ (scrapeAndZip inp2).outcome = .ok (zipName inp.query)
    ∧ (∃ e2, (scrapeAndZip inp2).archive = some (zipName inp.query, e2)) := by
  have hne := downloadLoop_isEmpty_false inp.fetch urls hs
  have hne2 := downloadLoop_isEmpty_false inp2.fetch urls2 hs2
  have hq2e : inp2.query.isEmpty = false := by rw [hq2]; exact hq
  rw [scrapeAndZip_success inp urls hq hr hne,
    scrapeAndZip_success inp2 urls2 hq2e hr2 hne2, hq2]
  exact ⟨rfl, rfl, ⟨_, rfl⟩, rfl, ⟨_, rfl⟩⟩

/-- C7 witness: the same query `"cute cats"` run against two different
environments produces the same archive name `cute_cats_images.zip` both
times. -/
theorem C7_archive_name_deterministic_witness :
    zipName "cute cats" = "cute_cats_images.zip"
    ∧ (zipName "cute cats"
        = String.mk ("cute cats".toList.map fun c => if c = ' ' then '_' else c)
          ++ "_images.zip"
      ∧ (scrapeAndZip (Input.mk "cute cats" 50 "tempdirA"
          (.ok ["http://e.com/a.jpg"]) fun _ => some [7])).outcome
        = .ok (zipName "cute cats")
      ∧ (∃ e1, (scrapeAndZip (Input.mk "cute cats" 50 "tempdirA"
          (.ok ["http://e.com/a.jpg"]) fun _ => some [7])).archive
          = some (zipName "cute cats", e1))
      ∧ (scrapeAndZip (Input.mk "cute cats" 199 "tempdirB"
          (.ok ["http://e.com/b.png", "http://e.com/c.png"])
          fun i => if i = 0 then none else some [9])).outcome
        = .ok (zipName "cute cats")
      ∧ (∃ e2, (scrapeAndZip (Input.mk "cute cats" 199 "tempdirB"
          (.ok ["http://e.com/b.png", "http://e.com/c.png"])
          fun i => if i = 0 then none else some [9])).archive
          = some (zipName "cute cats", e2))) :=
  ⟨by decide,
    C7_archive_name_deterministic
      (Input.mk "cute cats" 50 "tempdirA" (.ok ["http://e.com/a.jpg"])
        fun _ => some [7])
      (Input.mk "cute cats" 199 "tempdirB"
        (.ok ["http://e.com/b.png", "http://e.com/c.png"])
        fun i => if i = 0 then none else some [9])
      ["http://e.com/a.jpg"] ["http://e.com/b.png", "http://e.com/c.png"]
      rfl rfl ⟨0, by decide, rfl⟩ rfl rfl ⟨1, by decide, rfl⟩⟩
